import Mathlib

set_option autoImplicit false

namespace KVLogger

/-!  Shallow embedding of the kvlogger device-communication core
(`kvlogger/models/command.py` and `kvlogger/models/client.py`).

Python `int` is modelled as `Int`, Python strings as `String`, the
insertion-ordered Python `dict` as an association list with Python's
update-in-place semantics, and the socket/client object state as an
explicit record threaded through the operations.  -/

/-- command.py / client.py `DataFormat`: the str-enum of RD/RDS data
format suffixes (`.U` unsigned16, `.S` signed16, `.D` unsigned32,
`.L` signed32, `.H` hex16). -/
inductive DataFormat
  | U
  | S
  | D
  | L
  | H
deriving DecidableEq, Repr

/-- The string carried by each `DataFormat` member (Python str-enum value),
which is what an f-string interpolates for it. -/
def DataFormat.value : DataFormat → String
  | .U => ".U"
  | .S => ".S"
  | .D => ".D"
  | .L => ".L"
  | .H => ".H"

/-- command.py `make_read_command(d_type_no, d_format, times)`:
`if times == 1: return f"RD {d_type_no}{d_format}\r"` else
`return f"RDS {d_type_no}{d_format} {times}\r"`.  Python annotates
`d_format: DataFormat` but never enforces or inspects it — the f-string
interpolates whatever string value arrives — so the embedding takes the
interpolated format suffix as a `String`.  The body performs no
validation of either argument. -/
def make_read_command (d_type_no : String) (d_format : String) (times : Int) : String :=
  if times = 1 then "RD " ++ d_type_no ++ d_format ++ "\r"
  else "RDS " ++ d_type_no ++ d_format ++ " " ++ toString times ++ "\r"

/-- Python `f"{n:02}"`: decimal rendering, zero-filled to a minimum field
width of two characters (the sign counts toward the width). -/
def pyFormat02 (n : Int) : String :=
  let s := toString n
  if s.length < 2 then "0" ++ s else s

/-- Python `f"{n:01}"`: minimum field width one — never pads. -/
def pyFormat01 (n : Int) : String :=
  toString n

/-- command.py `make_timeset_command(yy, mm, dd, HH, MM, SS, week)`:
`f"WRT {yy:02} {mm:02} {dd:02} {HH:02} {MM:02} {SS:02} {week:01}\r"`.
No range validation is performed by the source. -/
def make_timeset_command (yy mm dd HH MM SS week : Int) : String :=
  "WRT " ++ pyFormat02 yy ++ " " ++ pyFormat02 mm ++ " " ++ pyFormat02 dd ++ " " ++
    pyFormat02 HH ++ " " ++ pyFormat02 MM ++ " " ++ pyFormat02 SS ++ " " ++
    pyFormat01 week ++ "\r"

/-- Error kinds the spec's CommandBuilder names (§4.1, §7).  No such
exception classes exist anywhere in the source tree; this type exists only
to state the spec-side validating builder `specBuildRead`. -/
inductive BuildErr
  | invalidFormat
  | invalidArgument
deriving DecidableEq, Repr

/-- Spec-side `build_read` written from the spec's words (§4.1): validate
the format tag against the enumerated suffix set (else `InvalidFormatError`)
and require a positive count (else `InvalidArgumentError`); otherwise build
the same RD/RDS string.  Compared against `make_read_command`, which
performs no validation at all. -/
def specBuildRead (addr fmtTag : String) (count : Int) : Except BuildErr String :=
  if fmtTag ∈ ([".U", ".S", ".D", ".L", ".H"] : List String) then
    if 1 ≤ count then
      if count = 1 then .ok ("RD " ++ addr ++ fmtTag ++ "\r")
      else .ok ("RDS " ++ addr ++ fmtTag ++ " " ++ toString count ++ "\r")
    else .error .invalidArgument
  else .error .invalidFormat

/-- Spec-side rendering of a clock field "zero-padded to exactly two
digits" (§4.1, C7): a leading zero exactly when the value has a single
decimal digit. -/
def twoDigitField (n : Int) : String :=
  if n < 10 then "0" ++ toString n else toString n

lemma int_toString_of_nonneg (n : Int) (h : 0 ≤ n) : toString n = toString n.toNat := by
  obtain ⟨m, rfl⟩ := Int.eq_ofNat_of_zero_le h
  rfl

lemma nat_toString_length_of_lt_100 :
    ∀ m : Nat, m < 100 → (toString m).length = if m < 10 then 1 else 2 := by decide

lemma twoDigitField_length (n : Int) (h0 : 0 ≤ n) (h99 : n ≤ 99) :
    (twoDigitField n).length = 2 := by
  have hn : n.toNat < 100 := by omega
  have hlen := nat_toString_length_of_lt_100 n.toNat hn
  unfold twoDigitField
  by_cases h : n < 10
  · have h10 : n.toNat < 10 := by omega
    simp only [if_pos h, String.length_append, int_toString_of_nonneg n h0]
    rw [hlen, if_pos h10]
    rfl
  · have h10 : ¬ n.toNat < 10 := by omega
    simp only [if_neg h, int_toString_of_nonneg n h0]
    rw [hlen, if_neg h10]

lemma pyFormat02_eq_twoDigitField (n : Int) (h0 : 0 ≤ n) (h99 : n ≤ 99) :
    pyFormat02 n = twoDigitField n := by
  have hn : n.toNat < 100 := by omega
  have hlen := nat_toString_length_of_lt_100 n.toNat hn
  unfold pyFormat02 twoDigitField
  by_cases h : n < 10
  · have h10 : n.toNat < 10 := by omega
    rw [if_pos h]
    have : (toString n).length = 1 := by
      rw [int_toString_of_nonneg n h0, hlen, if_pos h10]
    simp [this]
  · have h10 : ¬ n.toNat < 10 := by omega
    rw [if_neg h]
    have : (toString n).length = 2 := by
      rw [int_toString_of_nonneg n h0, hlen, if_neg h10]
    simp [this]

lemma int_toString_length_one (n : Int) (h0 : 0 ≤ n) (h9 : n ≤ 9) :
    (toString n).length = 1 := by
  have hn : n.toNat < 100 := by omega
  have h10 : n.toNat < 10 := by omega
  rw [int_toString_of_nonneg n h0, nat_toString_length_of_lt_100 n.toNat hn, if_pos h10]

/-- C5: for every address tag, valid format tag and positive count,
`make_read_command` returns `"RD " + addr + suffix + "\r"` when the count
is 1 and `"RDS " + addr + suffix + " " + count + "\r"` when it is greater,
the suffix being one of `.U .S .D .L .H`. -/
theorem make_read_command_formats (addr : String) (f : DataFormat) (times : Int)
    (hpos : 1 ≤ times) :
    (times = 1 →
      make_read_command addr f.value times = "RD " ++ addr ++ f.value ++ "\r") ∧
    (1 < times →
      make_read_command addr f.value times =
        "RDS " ++ addr ++ f.value ++ " " ++ toString times ++ "\r") ∧
    (f.value = ".U" ∨ f.value = ".S" ∨ f.value = ".D" ∨ f.value = ".L" ∨ f.value = ".H") := by
  refine ⟨fun h1 => ?_, fun hgt => ?_, ?_⟩
  · rw [make_read_command, if_pos h1]
  · rw [make_read_command, if_neg (by omega)]
  · cases f <;> simp [DataFormat.value]

theorem make_read_command_formats_witness :
    make_read_command "DM1000" DataFormat.D.value 1 = "RD " ++ "DM1000" ++ ".D" ++ "\r" ∧
    make_read_command "DM1000" DataFormat.D.value 5 =
      "RDS " ++ "DM1000" ++ ".D" ++ " " ++ toString (5 : Int) ++ "\r" :=
  ⟨(make_read_command_formats "DM1000" DataFormat.D 1 (by decide)).1 rfl,
   (make_read_command_formats "DM1000" DataFormat.D 5 (by decide)).2.1 (by decide)⟩

/-- C6 counterexample: `make_read_command` performs no validation.  A tag
outside the enumerated suffix set is interpolated verbatim into an
ordinary command string (where the spec-side validating builder fails with
`InvalidFormatError`), and a non-positive count yields an RDS command
containing that count (where the spec-side builder fails with
`InvalidArgumentError`); no error path exists in the source. -/
theorem make_read_command_no_validation_cex :
    make_read_command "DM1000" ".X" 1 = "RD DM1000.X\r" ∧
    specBuildRead "DM1000" ".X" 1 = .error .invalidFormat ∧
    make_read_command "DM1000" ".U" 0 = "RDS DM1000.U 0\r" ∧
    specBuildRead "DM1000" ".U" 0 = .error .invalidArgument := by
  exact ⟨by decide, rfl, by decide, rfl⟩

/-- C6 amended: `make_read_command` never raises — for every address string
and every format-suffix string it is a total string function; a count of 0
or a negative count simply lands in the RDS branch, and an arbitrary tag is
interpolated unchecked. -/
theorem make_read_command_total (addr fmtTag : String) :
    make_read_command addr fmtTag 1 = "RD " ++ addr ++ fmtTag ++ "\r" ∧
    make_read_command addr fmtTag 0 =
      "RDS " ++ addr ++ fmtTag ++ " " ++ toString (0 : Int) ++ "\r" ∧
    make_read_command addr fmtTag (-3) =
      "RDS " ++ addr ++ fmtTag ++ " " ++ toString (-3 : Int) ++ "\r" := by
  refine ⟨?_, ?_, ?_⟩
  · rw [make_read_command, if_pos rfl]
  · rw [make_read_command, if_neg (by decide)]
  · rw [make_read_command, if_neg (by decide)]

/-- C7: for every in-range clock input, `make_timeset_command` returns
`"WRT "` followed by the six numeric fields zero-padded to exactly two
digits each, then the weekday as one digit, terminated by a carriage
return. -/
theorem make_timeset_command_spec (yy mm dd HH MM SS week : Int)
    (hyy : 0 ≤ yy ∧ yy ≤ 99) (hmm : 1 ≤ mm ∧ mm ≤ 12) (hdd : 1 ≤ dd ∧ dd ≤ 31)
    (hHH : 0 ≤ HH ∧ HH ≤ 23) (hMM : 0 ≤ MM ∧ MM ≤ 60) (hSS : 0 ≤ SS ∧ SS ≤ 60)
    (hweek : 0 ≤ week ∧ week ≤ 6) :
    make_timeset_command yy mm dd HH MM SS week =
      "WRT " ++ twoDigitField yy ++ " " ++ twoDigitField mm ++ " " ++ twoDigitField dd ++
        " " ++ twoDigitField HH ++ " " ++ twoDigitField MM ++ " " ++ twoDigitField SS ++
        " " ++ toString week ++ "\r" ∧
    (twoDigitField yy).length = 2 ∧ (twoDigitField mm).length = 2 ∧
    (twoDigitField dd).length = 2 ∧ (twoDigitField HH).length = 2 ∧
    (twoDigitField MM).length = 2 ∧ (twoDigitField SS).length = 2 ∧
    (toString week).length = 1 := by
  refine ⟨?_, twoDigitField_length yy hyy.1 hyy.2,
    twoDigitField_length mm (by omega) (by omega),
    twoDigitField_length dd (by omega) (by omega),
    twoDigitField_length HH hHH.1 (by omega),
    twoDigitField_length MM hMM.1 (by omega),
    twoDigitField_length SS hSS.1 (by omega),
    int_toString_length_one week hweek.1 (by omega)⟩
  rw [make_timeset_command, pyFormat01,
    pyFormat02_eq_twoDigitField yy hyy.1 hyy.2,
    pyFormat02_eq_twoDigitField mm (by omega) (by omega),
    pyFormat02_eq_twoDigitField dd (by omega) (by omega),
    pyFormat02_eq_twoDigitField HH hHH.1 (by omega),
    pyFormat02_eq_twoDigitField MM hMM.1 (by omega),
    pyFormat02_eq_twoDigitField SS hSS.1 (by omega)]

theorem make_timeset_command_spec_witness :
    make_timeset_command 21 3 5 9 7 0 6 = "WRT 21 03 05 09 07 00 6\r" := by
  have h := make_timeset_command_spec 21 3 5 9 7 0 6 (by decide) (by decide) (by decide)
    (by decide) (by decide) (by decide) (by decide)
  rw [h.1]
  decide

/-- client.py `Status(enum.Flag)`: the connection status owned by the
client.  Only single-flag values ever occur. -/
inductive Status
  | NOT_CONNECTED
  | CONNECTED
  | ERROR
deriving DecidableEq, Repr

/-- Model of the `socket.socket` object state the client code touches: the
timeout installed by `settimeout` (`none` = the fresh socket's default) and
the peer the socket is connected to (`none` = unconnected).  The timeout is
carried as an integer; the claims only compare set/unset and value
identity. -/
structure PySocket where
  timeout : Option Int
  connectedTo : Option (String × Int)
deriving DecidableEq, Repr

/-- Python `socket.socket(socket.AF_INET, socket.SOCK_STREAM)`: a fresh,
unconnected socket with no timeout installed. -/
def socket_socket : PySocket :=
  { timeout := none, connectedTo := none }

/-- client.py `make_read_commands(address, fmts)`:
`[f"RD {address}.{fmt}\r" for address, fmt in zip(address, fmts)]`; the
zip truncates to the shorter of the two lists. -/
def make_read_commands (address fmts : List String) : List String :=
  (address.zip fmts).map fun p => "RD " ++ p.1 ++ "." ++ p.2 ++ "\r"

/-- One Python-dict assignment `d[k] = v` on an insertion-ordered
association list: overwrite in place when the key is already present,
append otherwise. -/
def dictInsert (d : List (String × String)) (k v : String) : List (String × String) :=
  if d.any fun p => p.1 == k then d.map fun p => if p.1 == k then (k, v) else p
  else d ++ [(k, v)]

/-- Python `dict(pairs)`: the assignments folded left to right over the
empty dict, so a later duplicate key overwrites the earlier entry's value
in place. -/
def dictOf (ps : List (String × String)) : List (String × String) :=
  ps.foldl (fun d p => dictInsert d p.1 p.2) []

/-- Python dict lookup: the value of the (unique) entry with the given
key. -/
def dictGet (d : List (String × String)) (k : String) : Option String :=
  (d.find? fun p => p.1 == k).map fun p => p.2

/-- client.py `KVClient` object state: connection status, the socket, and
the name→command dict built in `__init__`. -/
structure KVClient where
  status : Status
  client : PySocket
  commands : List (String × String)
deriving DecidableEq, Repr

/-- client.py `KVClient.__init__(measure_name, address, fmts)`: status
NOT_CONNECTED, a fresh socket, and
`dict(zip(measure_name, make_read_commands(address, fmts)))`. -/
def KVClient.init (measure_name address fmts : List String) : KVClient :=
  { status := .NOT_CONNECTED
    client := socket_socket
    commands := dictOf (measure_name.zip (make_read_commands address fmts)) }

/-- What the operating system does with an attempted `socket.connect`:
accept it, let the timeout expire (`socket.timeout`), or refuse it
immediately (`ConnectionRefusedError`). -/
inductive ConnectOutcome
  | accept
  | timeoutExpired
  | refused
deriving DecidableEq, Repr

/-- The exception kinds the embedded client operations can let escape.
`osErrorTimeout` is the plain `OSError` raised from `connect`'s
`socket.timeout` handler; `connectionRefused` is the OS-level
`ConnectionRefusedError`, which `connect` has no handler for;
`socketError` is any send/recv failure inside `get_plc_value`, also
unhandled there; `valueError` is `int()` failing to parse a response;
`structError` is `struct.pack('>L', v)` on a value outside 0..2^32-1. -/
inductive PyErr
  | osErrorTimeout
  | connectionRefused
  | socketError
  | valueError
  | structError
deriving DecidableEq, Repr

/-- client.py `KVClient.disconnect`: close the socket, replace it with a
fresh unconnected one, set status NOT_CONNECTED — unconditionally. -/
def KVClient.disconnect (c : KVClient) : KVClient :=
  { c with client := socket_socket, status := .NOT_CONNECTED }

/-- client.py `KVClient.connect(address, timeout)`.  `settimeout(timeout)`
runs first, unconditionally.  The connect is attempted only when
`self.status in Status.NOT_CONNECTED | Status.ERROR` (enum.Flag
membership: the status is NOT_CONNECTED or ERROR).  On success the status
becomes CONNECTED.  On `socket.timeout` the handler sets status
NOT_CONNECTED, calls `disconnect()`, and raises `OSError`.  A
`ConnectionRefusedError` has no handler and escapes with the state as it
stands.  The result is the final object state paired with the escaped
exception, if any. -/
def KVClient.connect (c : KVClient) (address : String × Int) (timeout : Int)
    (net : ConnectOutcome) : KVClient × Option PyErr :=
  let c' := { c with client := { c.client with timeout := some timeout } }
  if c'.status = .NOT_CONNECTED ∨ c'.status = .ERROR then
    match net with
    | .accept =>
      ({ c' with status := .CONNECTED,
                 client := { c'.client with connectedTo := some address } }, none)
    | .timeoutExpired =>
      ({ c' with status := .NOT_CONNECTED }.disconnect, some .osErrorTimeout)
    | .refused => (c', some .connectionRefused)
  else (c', none)

/-- C8: `disconnect` is unconditional and idempotent — from every client
state it leaves status NOT_CONNECTED with a fresh unconnected socket, and
a second `disconnect` changes nothing further. -/
theorem disconnect_unconditional_idempotent (c : KVClient) :
    c.disconnect.status = .NOT_CONNECTED ∧
    c.disconnect.client = socket_socket ∧
    c.disconnect.disconnect = c.disconnect :=
  ⟨rfl, rfl, rfl⟩

/-- C2 counterexample: an immediately refused connect attempt from status
ERROR propagates `ConnectionRefusedError` while leaving status ERROR — not
NOT_CONNECTED — and leaves the old socket in place (only its timeout was
set); the reset-before-propagate policy holds only for the timeout path. -/
theorem connect_refused_no_reset_cex :
    ((KVClient.mk .ERROR socket_socket []).connect ("192.168.0.10", 8501) 2 .refused).2 =
      some .connectionRefused ∧
    ((KVClient.mk .ERROR socket_socket []).connect ("192.168.0.10", 8501) 2 .refused).1.status =
      .ERROR ∧
    ((KVClient.mk .ERROR socket_socket []).connect ("192.168.0.10", 8501) 2 .refused).1.client ≠
      socket_socket := by
  refine ⟨rfl, rfl, by decide⟩

/-- C2 amended: when a connect is attempted (status NOT_CONNECTED or
ERROR), a socket-level timeout makes the client reset its socket and set
status NOT_CONNECTED before propagating the timeout error; an immediate
refusal propagates `ConnectionRefusedError` with no reset — status and
socket stay as they were, apart from the timeout just installed by
`settimeout`. -/
theorem connect_failure_paths (c : KVClient) (address : String × Int) (timeout : Int)
    (h : c.status = .NOT_CONNECTED ∨ c.status = .ERROR) :
    c.connect address timeout .timeoutExpired =
      ({ status := .NOT_CONNECTED, client := socket_socket, commands := c.commands },
        some .osErrorTimeout) ∧
    c.connect address timeout .refused =
      ({ c with client := { c.client with timeout := some timeout } },
        some .connectionRefused) := by
  rcases h with h | h <;>
    exact ⟨by simp [KVClient.connect, KVClient.disconnect, h],
           by simp [KVClient.connect, h]⟩

theorem connect_failure_paths_witness :
    (KVClient.mk .ERROR socket_socket []).connect ("192.168.0.10", 8501) 2 .timeoutExpired =
      (KVClient.mk .NOT_CONNECTED socket_socket [], some .osErrorTimeout) ∧
    (KVClient.mk .ERROR socket_socket []).connect ("192.168.0.10", 8501) 2 .refused =
      (KVClient.mk .ERROR (PySocket.mk (some 2) none) [], some .connectionRefused) :=
  connect_failure_paths (KVClient.mk .ERROR socket_socket []) ("192.168.0.10", 8501) 2
    (Or.inr rfl)

/-- C9 counterexample: calling `connect` while CONNECTED does leave the
status and the peer connection alone, but it is not a strict no-op — the
unconditional `settimeout` call before the status guard mutates the
socket's timeout, so the client state is not left unchanged. -/
theorem connect_while_connected_cex :
    ((KVClient.mk .CONNECTED socket_socket []).connect ("192.168.0.10", 8501) 5 .accept).1 ≠
      KVClient.mk .CONNECTED socket_socket [] ∧
    ((KVClient.mk .CONNECTED socket_socket []).connect ("192.168.0.10", 8501) 5 .accept).1.client.timeout =
      some 5 := by
  refine ⟨by decide, rfl⟩

/-- C9 amended: calling `connect` while CONNECTED attempts no connection
and raises no error, and leaves status, peer connection and command table
unchanged; the sole state change is that the socket's timeout is set to
the given value (because `settimeout` precedes the status guard).  In
particular the result is the same for every possible network outcome, so
a connection is attempted only from NOT_CONNECTED or ERROR. -/
theorem connect_while_connected (c : KVClient) (address : String × Int) (timeout : Int)
    (net : ConnectOutcome) (h : c.status = .CONNECTED) :
    c.connect address timeout net =
      ({ c with client := { c.client with timeout := some timeout } }, none) := by
  simp [KVClient.connect, h]

theorem connect_while_connected_witness :
    (KVClient.mk .CONNECTED (PySocket.mk none (some ("192.168.0.10", 8501))) []).connect
        ("192.168.0.10", 8501) 7 .accept =
      (KVClient.mk .CONNECTED (PySocket.mk (some 7) (some ("192.168.0.10", 8501))) [], none) :=
  connect_while_connected
    (KVClient.mk .CONNECTED (PySocket.mk none (some ("192.168.0.10", 8501))) [])
    ("192.168.0.10", 8501) 7 .accept rfl

/-- An IEEE-754 binary32 float represented by its 32-bit pattern.  The
claims about `convert_2word_to_double` concern bit reinterpretation and
bit-level IEEE equality, so the value is carried as its pattern and the
IEEE predicates (NaN, zero, equality) are defined on the fields. -/
structure Float32 where
  bits : Fin (2 ^ 32)
deriving DecidableEq, Repr

/-- The 8-bit exponent field (bits 23..30). -/
def Float32.expField (f : Float32) : Nat :=
  f.bits.val / 2 ^ 23 % 2 ^ 8

/-- The 23-bit mantissa field (bits 0..22). -/
def Float32.mantissaField (f : Float32) : Nat :=
  f.bits.val % 2 ^ 23

/-- NaN: exponent all ones with a nonzero mantissa. -/
def Float32.isNaN (f : Float32) : Bool :=
  f.expField == 255 && f.mantissaField != 0

/-- Finite: exponent not all ones (excludes NaN and the infinities). -/
def Float32.isFinite (f : Float32) : Bool :=
  f.expField != 255

/-- Zero of either sign: all bits below the sign bit clear. -/
def Float32.isZero (f : Float32) : Bool :=
  f.bits.val % 2 ^ 31 == 0

/-- IEEE-754 floating-point equality on binary32: NaN equals nothing,
+0 and -0 are equal, and every other pair is equal exactly when the bit
patterns coincide. -/
def Float32.feq (a b : Float32) : Bool :=
  if a.isNaN || b.isNaN then false
  else if a.isZero && b.isZero then true
  else a.bits == b.bits

/-- Python `struct.pack('>L', value)`: the four big-endian bytes of a value in
0..2^32-1; `struct.error` (here `none`) outside that range. -/
def packL (value : Int) : Option (List (Fin 256)) :=
  if h : 0 ≤ value ∧ value < 2 ^ 32 then
    some [⟨value.toNat / 2 ^ 24 % 256, by omega⟩, ⟨value.toNat / 2 ^ 16 % 256, by omega⟩,
          ⟨value.toNat / 2 ^ 8 % 256, by omega⟩, ⟨value.toNat % 256, by omega⟩]
  else none

/-- Python `struct.unpack('>f', binary)[0]` on a 4-byte buffer: the float whose
bit pattern is the big-endian 32-bit word formed by the bytes; fails on
any other byte count. -/
def unpackF : List (Fin 256) → Option Float32
  | [b0, b1, b2, b3] =>
    some ⟨⟨b0.val * 2 ^ 24 + b1.val * 2 ^ 16 + b2.val * 2 ^ 8 + b3.val, by
      have h0 := b0.isLt
      have h1 := b1.isLt
      have h2 := b2.isLt
      have h3 := b3.isLt
      omega⟩⟩
  | _ => none

/-- client.py `convert_2word_to_double(value)`:
`binary = pack('>L', value)` then `return unpack('>f', binary)[0]`. -/
def convert_2word_to_double (value : Int) : Option Float32 :=
  (packL value).bind unpackF

/-- Spec-side encoder for C3: a float's 32-bit big-endian bit pattern
read back as an unsigned integer — `unpack('>L', pack('>f', f))[0]`,
i.e. the big-endian bytes of the pattern folded back into a word. -/
def encodeFloat32BE (f : Float32) : Int :=
  (([⟨f.bits.val / 2 ^ 24 % 256, by omega⟩, ⟨f.bits.val / 2 ^ 16 % 256, by omega⟩,
     ⟨f.bits.val / 2 ^ 8 % 256, by omega⟩, ⟨f.bits.val % 256, by omega⟩] :
      List (Fin 256)).foldl (fun a b => a * 256 + b.val) 0 : Nat)

lemma encodeFloat32BE_eq_bits (f : Float32) : encodeFloat32BE f = (f.bits.val : Int) := by
  have hv := f.bits.isLt
  unfold encodeFloat32BE
  simp only [List.foldl]
  exact_mod_cast congrArg (Nat.cast : Nat → Int) (by omega)

lemma convert_2word_to_double_bits (v : Nat) (hv : v < 2 ^ 32) :
    convert_2word_to_double (v : Int) = some ⟨⟨v, hv⟩⟩ := by
  unfold convert_2word_to_double packL
  rw [dif_pos ⟨Int.ofNat_nonneg v, by exact_mod_cast hv⟩]
  simp only [Option.some_bind, unpackF, Int.toNat_ofNat, Option.some.injEq,
    Float32.mk.injEq, Fin.mk.injEq]
  omega

lemma feq_self_of_finite (f : Float32) (h : f.isFinite = true) : f.feq f = true := by
  have hnan : f.isNaN = false := by
    simp only [Float32.isFinite, bne_iff_ne, ne_eq] at h
    simp only [Float32.isNaN, Bool.and_eq_false_iff]
    exact Or.inl (by simpa using h)
  unfold Float32.feq
  rw [hnan]
  by_cases hz : f.isZero = true <;> simp [hz]

/-- C3: `convert_2word_to_double` bit-reinterprets its in-range unsigned
argument as a big-endian IEEE-754 binary32 float, and for every finite
32-bit float the encode-then-decode round trip returns the float, equal
under IEEE floating-point equality. -/
theorem convert_2word_to_double_roundtrip (f : Float32) (h : f.isFinite = true) :
    (∀ v : Nat, ∀ hv : v < 2 ^ 32, convert_2word_to_double (v : Int) = some ⟨⟨v, hv⟩⟩) ∧
    convert_2word_to_double (encodeFloat32BE f) = some f ∧
    ∃ g : Float32, convert_2word_to_double (encodeFloat32BE f) = some g ∧ g.feq f = true := by
  have hrt : convert_2word_to_double (encodeFloat32BE f) = some f := by
    rw [encodeFloat32BE_eq_bits, convert_2word_to_double_bits f.bits.val f.bits.isLt]
  exact ⟨convert_2word_to_double_bits, hrt, f, hrt, feq_self_of_finite f h⟩

theorem convert_2word_to_double_roundtrip_witness :
    convert_2word_to_double
        (encodeFloat32BE ⟨⟨1065353216, by norm_num⟩⟩) =
      some ⟨⟨1065353216, by norm_num⟩⟩ ∧
    ∃ g : Float32, convert_2word_to_double (encodeFloat32BE ⟨⟨1065353216, by norm_num⟩⟩) =
        some g ∧ g.feq ⟨⟨1065353216, by norm_num⟩⟩ = true :=
  ⟨(convert_2word_to_double_roundtrip ⟨⟨1065353216, by norm_num⟩⟩ (by decide)).2.1,
   (convert_2word_to_double_roundtrip ⟨⟨1065353216, by norm_num⟩⟩ (by decide)).2.2⟩

/-- The ASCII whitespace kinds Python's `int()` strips around a literal. -/
def isPySpace (c : Char) : Bool :=
  c == ' ' || c == '\t' || c == '\n' || c == '\r' || c == Char.ofNat 11 || c == Char.ofNat 12

/-- Strip `isPySpace` characters from both ends. -/
def pyStrip (cs : List Char) : List Char :=
  ((cs.dropWhile isPySpace).reverse.dropWhile isPySpace).reverse

/-- A nonempty base-10 digit run, as a number. -/
def parseDigits (cs : List Char) : Option Nat :=
  if cs ≠ [] ∧ cs.all Char.isDigit then
    some (cs.foldl (fun a c => a * 10 + (c.toNat - 48)) 0)
  else none

/-- Python `int(text)` in base 10: surrounding whitespace stripped, one
optional sign, then a nonempty digit run (digit-group underscores are not
modelled; PLC responses contain none); `ValueError` (here `none`)
otherwise. -/
def pyInt (s : String) : Option Int :=
  match pyStrip s.data with
  | '+' :: rest => (parseDigits rest).map fun n => (n : Int)
  | '-' :: rest => (parseDigits rest).map fun n => -(n : Int)
  | rest => (parseDigits rest).map fun n => (n : Int)

/-- Python `command[-3:]`: the last three characters (the whole string when
shorter). -/
def takeRight3 (s : String) : String :=
  String.mk (s.data.reverse.take 3).reverse

/-- What the device/network does for one command round trip inside
`get_plc_value`: the send fails, the recv fails, or a response string
arrives. -/
inductive IOOutcome
  | sendFail
  | recvFail
  | response (s : String)

/-- A decoded measurement value: `int(...)` text or the packed-float
conversion. -/
inductive PlcValue
  | intVal (n : Int)
  | floatVal (f : Float32)
deriving DecidableEq, Repr

/-- One Python-dict assignment `result[name] = response` on the result
dict, same semantics as `dictInsert`. -/
def dictInsertV (d : List (String × PlcValue)) (k : String) (v : PlcValue) :
    List (String × PlcValue) :=
  if d.any fun p => p.1 == k then d.map fun p => if p.1 == k then (k, v) else p
  else d ++ [(k, v)]

/-- The loop of `KVClient.get_plc_value`, over the command dict in
insertion order: send the command (a send failure escapes), recv and parse
the response with `int()` (a recv failure or parse failure escapes),
convert with `convert_2word_to_double` exactly when the command's last
three characters are `.D\r`, and store under the measurement name.  The
source has no handler anywhere in this loop. -/
def getPlcLoop (net : String → IOOutcome) :
    List (String × String) → List (String × PlcValue) →
    Except PyErr (List (String × PlcValue))
  | [], acc => .ok acc
  | (name, command) :: rest, acc =>
    match net command with
    | .sendFail => .error .socketError
    | .recvFail => .error .socketError
    | .response s =>
      match pyInt s with
      | none => .error .valueError
      | some n =>
        if takeRight3 command = ".D\r" then
          match convert_2word_to_double n with
          | none => .error .structError
          | some f => getPlcLoop net rest (dictInsertV acc name (.floatVal f))
        else getPlcLoop net rest (dictInsertV acc name (.intVal n))

/-- client.py `KVClient.get_plc_value`: runs the loop over `self.commands`.
The object state is returned exactly as received — the method body contains
no assignment to `self.status` or `self.client` (its docstring carries the
TODO that lost-connection handling is missing). -/
def KVClient.get_plc_value (c : KVClient) (net : String → IOOutcome) :
    KVClient × Except PyErr (List (String × PlcValue)) :=
  (c, getPlcLoop net c.commands [])

/-- C1 (code bug): a send/recv failure during `get_plc_value` escapes to
the caller — never swallowed — but the client does not transition to ERROR
first: the object state is untouched by the method (no assignment of
`Status.ERROR` exists anywhere in the source, nor any `CommunicationError`
type).  Concretely, a connected client polling one descriptor whose send
fails gets the error back while its status is still CONNECTED. -/
theorem get_plc_value_status_unchanged :
    (∀ (c : KVClient) (net : String → IOOutcome), (c.get_plc_value net).1 = c) ∧
    ((KVClient.init ["temp"] ["DM1000"] ["D"]).connect ("192.168.0.10", 8501) 2
        .accept).1.status = .CONNECTED ∧
    (((KVClient.init ["temp"] ["DM1000"] ["D"]).connect ("192.168.0.10", 8501) 2
        .accept).1.get_plc_value (fun _ => .sendFail)).2 = .error .socketError ∧
    (((KVClient.init ["temp"] ["DM1000"] ["D"]).connect ("192.168.0.10", 8501) 2
        .accept).1.get_plc_value (fun _ => .sendFail)).1.status = .CONNECTED :=
  ⟨fun _ _ => rfl, rfl, rfl, rfl⟩

lemma takeRight3_read_command (addr fmt : String) (c : Char) (h : fmt.data = [c]) :
    takeRight3 ("RD " ++ addr ++ "." ++ fmt ++ "\r") = String.mk ['.', c, '\r'] := by
  obtain ⟨m⟩ := addr
  obtain ⟨l⟩ := fmt
  simp only [String.data] at h
  subst h
  show String.mk (((((("RD ".data ++ m) ++ ['.']) ++ [c]) ++ ['\r']).reverse.take 3).reverse) = _
  simp [List.reverse_append]

lemma getPlcLoop_single (net : String → IOOutcome) (name command resp : String) (n : Int)
    (hnet : net command = .response resp) (hresp : pyInt resp = some n) :
    getPlcLoop net [(name, command)] [] =
      if takeRight3 command = ".D\r" then
        (match convert_2word_to_double n with
         | none => .error .structError
         | some f => .ok [(name, .floatVal f)])
      else .ok [(name, .intVal n)] := by
  simp only [getPlcLoop, hnet, hresp, dictInsertV, List.any_nil, Bool.false_eq_true,
    if_false, List.nil_append]

/-- C4 counterexample: in a poll, an `.H`-format descriptor's response is
decoded by plain base-10 `int()`, not as a base-16 literal — the response
text "10" decodes to 10, where a base-16 decode would give 16. -/
theorem poll_hex_not_base16_cex :
    ((KVClient.init ["m"] ["DM1000"] ["H"]).get_plc_value
        (fun _ => .response "10")).2 = .ok [("m", .intVal 10)] ∧
    PlcValue.intVal 10 ≠ PlcValue.intVal 16 :=
  ⟨rfl, by decide⟩

/-- C4 amended: in a poll cycle, exactly the descriptors whose format tag
is `D` take the packed-float decode path; every other valid tag — `H`
included — decodes the response text as a plain base-10 integer via
`int()`. -/
theorem poll_decode_selection (name addr fmt resp : String) (n : Int)
    (hfmt : fmt ∈ (["U", "S", "D", "L", "H"] : List String))
    (hresp : pyInt resp = some n) :
    ((KVClient.init [name] [addr] [fmt]).get_plc_value (fun _ => .response resp)).2 =
      if fmt = "D" then
        (match convert_2word_to_double n with
         | none => .error .structError
         | some f => .ok [(name, .floatVal f)])
      else .ok [(name, .intVal n)] := by
  have hc : ((KVClient.init [name] [addr] [fmt]).get_plc_value
        (fun _ => IOOutcome.response resp)).2 =
      getPlcLoop (fun _ => IOOutcome.response resp)
        [(name, "RD " ++ addr ++ "." ++ fmt ++ "\r")] [] := rfl
  rw [hc, getPlcLoop_single (fun _ => IOOutcome.response resp) name
    ("RD " ++ addr ++ "." ++ fmt ++ "\r") resp n rfl hresp]
  simp only [List.mem_cons, List.not_mem_nil, or_false] at hfmt
  rcases hfmt with rfl | rfl | rfl | rfl | rfl
  · rw [takeRight3_read_command addr "U" 'U' rfl, if_neg (by decide), if_neg (by decide)]
  · rw [takeRight3_read_command addr "S" 'S' rfl, if_neg (by decide), if_neg (by decide)]
  · rw [takeRight3_read_command addr "D" 'D' rfl, if_pos (by decide), if_pos rfl]
  · rw [takeRight3_read_command addr "L" 'L' rfl, if_neg (by decide), if_neg (by decide)]
  · rw [takeRight3_read_command addr "H" 'H' rfl, if_neg (by decide), if_neg (by decide)]

theorem poll_decode_selection_witness :
    pyInt "0" = some 0 ∧
    ((KVClient.init ["m"] ["DM1000"] ["D"]).get_plc_value (fun _ => .response "0")).2 =
      (if ("D" : String) = "D" then
        (match convert_2word_to_double 0 with
         | none => Except.error PyErr.structError
         | some f => Except.ok [("m", PlcValue.floatVal f)])
       else Except.ok [("m", PlcValue.intVal 0)]) :=
  ⟨rfl, poll_decode_selection "m" "DM1000" "D" "0" 0 (by decide) rfl⟩

lemma dictGet_dictInsert (d : List (String × String)) (k v k' : String) :
    dictGet (dictInsert d k v) k' = if k' = k then some v else dictGet d k' := by
  unfold dictInsert dictGet
  by_cases hany : (d.any fun p => p.1 == k) = true
  · rw [if_pos hany, List.find?_map]
    by_cases hk : k' = k
    · subst hk
      have hpred : ((fun p : String × String => p.1 == k') ∘
          fun p => if p.1 == k' then (k', v) else p) =
          fun p : String × String => p.1 == k' := by
        funext p
        by_cases hp : (p.1 == k') = true <;> simp [Function.comp, hp]
      rw [hpred]
      rw [List.any_eq_true] at hany
      obtain ⟨x, hx, hpx⟩ := hany
      cases he : d.find? fun p : String × String => p.1 == k' with
      | none => exact absurd hpx (List.find?_eq_none.mp he x hx)
      | some e =>
        have hpe : (e.1 == k') = true := by simpa using List.find?_some he
        simp [hpe, eq_of_beq hpe]
    · have hpred : ((fun p : String × String => p.1 == k') ∘
          fun p => if p.1 == k then (k, v) else p) =
          fun p : String × String => p.1 == k' := by
        funext p
        by_cases hp : (p.1 == k) = true
        · have hp1 : p.1 = k := eq_of_beq hp
          simp [Function.comp, hp, hp1]
        · simp [Function.comp, hp]
      rw [hpred, if_neg hk]
      cases he : d.find? fun p : String × String => p.1 == k' with
      | none => simp
      | some e =>
        have hpe : (e.1 == k') = true := by simpa using List.find?_some he
        simp [eq_of_beq hpe, hk]
  · rw [if_neg hany, List.find?_append]
    by_cases hk : k' = k
    · subst hk
      have hnone : (d.find? fun p : String × String => p.1 == k') = none := by
        cases he : d.find? fun p : String × String => p.1 == k' with
        | none => rfl
        | some e =>
          exact absurd
            (List.any_eq_true.mpr ⟨e, List.mem_of_find?_eq_some he, List.find?_some he⟩) hany
      rw [hnone]
      simp
    · have hk2 : (k == k') = false := beq_eq_false_iff_ne.mpr fun h => hk h.symm
      simp [hk2, hk]

lemma dictGet_foldl (ps : List (String × String)) :
    ∀ (d : List (String × String)) (k : String),
      dictGet (ps.foldl (fun d p => dictInsert d p.1 p.2) d) k =
        ((ps.reverse.find? fun p => p.1 == k).map Prod.snd).or (dictGet d k) := by
  induction ps with
  | nil => intro d k; simp
  | cons a t ih =>
    intro d k
    rw [List.foldl_cons, ih, dictGet_dictInsert, List.reverse_cons, List.find?_append]
    cases hf : t.reverse.find? fun p : String × String => p.1 == k with
    | some e => simp
    | none =>
      by_cases hk : k = a.1
      · simp [hk]
      · have hk1 : (a.1 == k) = false := beq_eq_false_iff_ne.mpr fun h => hk h.symm
        simp [hk, hk1]

lemma dictGet_dictOf (ps : List (String × String)) (k : String) :
    dictGet (dictOf ps) k = (ps.reverse.find? fun p => p.1 == k).map Prod.snd := by
  rw [dictOf, dictGet_foldl]
  simp [dictGet]

lemma dictInsert_length (d : List (String × String)) (k v : String) :
    (dictInsert d k v).length ≤ d.length + 1 := by
  unfold dictInsert
  split
  · simp only [List.length_map]
    omega
  · simp only [List.length_append, List.length_cons, List.length_nil]
    omega

lemma dictOf_foldl_length (ps : List (String × String)) :
    ∀ d : List (String × String),
      (ps.foldl (fun d p => dictInsert d p.1 p.2) d).length ≤ d.length + ps.length := by
  induction ps with
  | nil => intro d; simp
  | cons a t ih =>
    intro d
    rw [List.foldl_cons]
    have h1 := ih (dictInsert d a.1 a.2)
    have h2 := dictInsert_length d a.1 a.2
    simp only [List.length_cons]
    omega

lemma dictOf_length (ps : List (String × String)) : (dictOf ps).length ≤ ps.length := by
  have h := dictOf_foldl_length ps []
  simp only [List.length_nil, Nat.zero_add] at h
  exact h

lemma dictInsert_of_not_mem (d : List (String × String)) (k v : String)
    (h : (d.any fun p => p.1 == k) = false) : dictInsert d k v = d ++ [(k, v)] := by
  simp [dictInsert, h]

lemma dictOf_foldl_nodup (ps : List (String × String)) :
    ∀ d : List (String × String), ((d ++ ps).map Prod.fst).Nodup →
      ps.foldl (fun d p => dictInsert d p.1 p.2) d = d ++ ps := by
  induction ps with
  | nil => intro d _; simp
  | cons a t ih =>
    intro d hnd
    have hmap : ((d ++ a :: t).map Prod.fst) =
        d.map Prod.fst ++ a.1 :: t.map Prod.fst := by simp
    rw [hmap] at hnd
    have hnotin : a.1 ∉ d.map Prod.fst := by
      rcases List.nodup_append.mp hnd with ⟨-, -, hdisj⟩
      exact fun hmem => hdisj hmem (List.mem_cons_self a.1 _)
    have hany : (d.any fun p => p.1 == a.1) = false := by
      rw [Bool.eq_false_iff]
      intro hc
      rw [List.any_eq_true] at hc
      obtain ⟨x, hx, hpx⟩ := hc
      exact hnotin (eq_of_beq hpx ▸ List.mem_map_of_mem Prod.fst hx)
    have happ : (d ++ [a]) ++ t = d ++ a :: t := by simp
    have hnd2 : (((d ++ [a]) ++ t).map Prod.fst).Nodup := by
      rw [happ, hmap]
      exact hnd
    rw [List.foldl_cons, dictInsert_of_not_mem d a.1 a.2 hany]
    have hsingle : d ++ [(a.1, a.2)] = d ++ [a] := by simp
    rw [hsingle, ih (d ++ [a]) hnd2, happ]

lemma dictOf_of_nodup_keys (ps : List (String × String)) (h : (ps.map Prod.fst).Nodup) :
    dictOf ps = ps := by
  simpa [dictOf] using dictOf_foldl_nodup ps [] (by simpa using h)

lemma map_fst_zip_sublist : ∀ (l₁ l₂ : List String),
    ((l₁.zip l₂).map Prod.fst).Sublist l₁
  | [], _ => by simp
  | _ :: _, [] => by simp
  | a :: t₁, b :: t₂ => by
    rw [List.zip_cons_cons, List.map_cons]
    exact (map_fst_zip_sublist t₁ t₂).cons₂ a

/-- C10: constructing a `KVClient` from measurement-name, address and
format lists of unequal lengths raises nothing; the name→command dict
holds at most as many entries as the shortest list (zip truncation),
exactly that many when the names are distinct, and lookup returns the
command of the last occurrence of a duplicated name within the truncated
zip. -/
theorem init_commands_zip_truncation (measure_name address fmts : List String) :
    (KVClient.init measure_name address fmts).commands.length ≤
      min measure_name.length (min address.length fmts.length) ∧
    (measure_name.Nodup →
      (KVClient.init measure_name address fmts).commands.length =
        min measure_name.length (min address.length fmts.length)) ∧
    ∀ n : String,
      dictGet (KVClient.init measure_name address fmts).commands n =
        ((measure_name.zip (make_read_commands address fmts)).reverse.find?
          fun p => p.1 == n).map Prod.snd := by
  have hclen : (make_read_commands address fmts).length = min address.length fmts.length := by
    simp [make_read_commands]
  have hzlen : (measure_name.zip (make_read_commands address fmts)).length =
      min measure_name.length (min address.length fmts.length) := by
    simp [List.length_zip, hclen]
  refine ⟨?_, ?_, ?_⟩
  · show (dictOf (measure_name.zip (make_read_commands address fmts))).length ≤ _
    exact hzlen ▸ dictOf_length _
  · intro hnd
    have hkeys : ((measure_name.zip (make_read_commands address fmts)).map Prod.fst).Nodup :=
      List.Nodup.sublist (map_fst_zip_sublist _ _) hnd
    show (dictOf (measure_name.zip (make_read_commands address fmts))).length = _
    rw [dictOf_of_nodup_keys _ hkeys, hzlen]
  · intro n
    show dictGet (dictOf (measure_name.zip (make_read_commands address fmts))) n = _
    rw [dictGet_dictOf]

theorem init_commands_zip_truncation_witness :
    (KVClient.init ["a", "a"] ["DM1", "DM2", "DM3"] ["U", "U"]).commands.length ≤ 2 ∧
    (KVClient.init ["a", "b"] ["DM1", "DM2", "DM3"] ["U", "U"]).commands.length = 2 ∧
    dictGet (KVClient.init ["a", "a"] ["DM1", "DM2", "DM3"] ["U", "U"]).commands "a" =
      some "RD DM2.U\r" := by
  refine ⟨?_, ?_, ?_⟩
  · simpa using (init_commands_zip_truncation ["a", "a"] ["DM1", "DM2", "DM3"] ["U", "U"]).1
  · simpa using
      (init_commands_zip_truncation ["a", "b"] ["DM1", "DM2", "DM3"] ["U", "U"]).2.1
        (by decide)
  · rw [(init_commands_zip_truncation ["a", "a"] ["DM1", "DM2", "DM3"] ["U", "U"]).2.2 "a"]
    rfl

end KVLogger
